import Mathlib

/-!
Verification of the `BackTester` trading engine (`src/backtest.py`).

The engine consumes a time-ordered sequence of bars, each carrying a close
price and an optional signal, and maintains a ledger: a balance, a list of
trades (each with entry price, amount bought and an `exited` flag), a
`last_action` label, win/loss magnitude lists and hit counters.  All
arithmetic is modelled over `ℚ`.
-/

/-- The categorical signal attached to a bar: `enter_long`, `exit_long`,
or absent (modelled by `Option Signal`). -/
inductive Signal where
  | enter_long
  | exit_long
deriving DecidableEq, Repr

/-- The `last_action` label recorded by the engine: the Python code stores
the strings `"enter_long"` and `"exit_trade"`, starting from `None`. -/
inductive BTAction where
  | enter_long
  | exit_trade
deriving DecidableEq, Repr

/-- One row of the input dataframe, as far as the engine reads it:
the `close` column and the `signal` column. -/
structure Bar where
  close : ℚ
  signal : Option Signal
deriving DecidableEq, Repr

/-- One trade dict as appended by `_enter_long`:
`{"price": current_price, "amount": amount_to_buy, "exited": False}`. -/
structure Trade where
  price : ℚ
  amount : ℚ
  exited : Bool
deriving DecidableEq, Repr

/-- The strategy parameters the engine copies at construction:
`stake_amount`, `stop_loss`, `take_profit`. -/
structure Params where
  stake_amount : ℚ
  stop_loss : ℚ
  take_profit : ℚ
deriving DecidableEq, Repr

/-- The mutable state of a `BackTester`: balance, trade list, last action,
win/loss lists, hit counters, trade count and the last processed row. -/
structure BT where
  balance : ℚ
  trades : List Trade
  last_action : Option BTAction
  wins : List ℚ
  losses : List ℚ
  sl_hits : ℕ
  tp_hits : ℕ
  force_exits : ℕ
  total_trades : ℕ
  last_row : Option Bar
deriving DecidableEq, Repr

/-- The state of a freshly constructed `BackTester` with starting balance `b`
(`__init__`): empty trades, `last_action = None`, empty win/loss lists,
zero counters, `last_row = None`. -/
def initState (b : ℚ) : BT :=
  { balance := b
    trades := []
    last_action := none
    wins := []
    losses := []
    sl_hits := 0
    tp_hits := 0
    force_exits := 0
    total_trades := 0
    last_row := none }

/-- `BackTester._enter_long`: if `balance >= stake_amount`, append a trade
with `amount = stake_amount / close`, debit the stake, bump `total_trades`
and set `last_action = "enter_long"`; otherwise do nothing. -/
def enterLong (c : ℚ) (p : Params) (s : BT) : BT :=
  if p.stake_amount ≤ s.balance then
    { s with
      trades := s.trades ++ [{ price := c, amount := p.stake_amount / c, exited := false }]
      balance := s.balance - p.stake_amount
      total_trades := s.total_trades + 1
      last_action := some BTAction.enter_long }
  else s

/-- `BackTester._exit_trade` acting on one trade dict: returns the updated
trade together with the updated scalar state (the `trades` field of the
returned state is untouched; `_exit_trades` reassembles the list).
Mirrors the Python branch structure: already-exited trades are a no-op;
`position_value = amount * close` is compared against `stake_amount`;
in the losing branch a forced exit or a stop-loss hit
(`(stake_amount - position_value)/stake_amount >= stop_loss`) closes the
trade and appends the loss; the gaining branch is symmetric with
`take_profit`; at exact break-even only a forced exit closes.  Every
closing path credits `position_value` back to the balance, marks the trade
exited and sets `last_action = "exit_trade"`. -/
def exitTrade (c : ℚ) (t : Trade) (is_sl_tp force_exit : Bool) (p : Params) (s : BT) :
    Trade × BT :=
  if t.exited then (t, s)
  else
    let pv := t.amount * c
    if pv < p.stake_amount then
      if is_sl_tp then
        if p.stop_loss ≤ (p.stake_amount - pv) / p.stake_amount then
          ({ t with exited := true },
           { s with
             sl_hits := s.sl_hits + 1
             losses := s.losses ++ [p.stake_amount - pv]
             balance := s.balance + pv
             last_action := some BTAction.exit_trade })
        else (t, s)
      else if force_exit then
        ({ t with exited := true },
         { s with
           force_exits := s.force_exits + 1
           losses := s.losses ++ [p.stake_amount - pv]
           balance := s.balance + pv
           last_action := some BTAction.exit_trade })
      else (t, s)
    else if p.stake_amount < pv then
      if is_sl_tp then
        if p.take_profit ≤ (pv - p.stake_amount) / p.stake_amount then
          ({ t with exited := true },
           { s with
             tp_hits := s.tp_hits + 1
             wins := s.wins ++ [pv - p.stake_amount]
             balance := s.balance + pv
             last_action := some BTAction.exit_trade })
        else (t, s)
      else if force_exit then
        ({ t with exited := true },
         { s with
           force_exits := s.force_exits + 1
           wins := s.wins ++ [pv - p.stake_amount]
           balance := s.balance + pv
           last_action := some BTAction.exit_trade })
      else (t, s)
    else
      if force_exit then
        ({ t with exited := true },
         { s with
           force_exits := s.force_exits + 1
           balance := s.balance + pv
           last_action := some BTAction.exit_trade })
      else (t, s)

/-- The loop body of `BackTester._exit_trades`: thread `_exit_trade` over a
trade list, returning the updated trades and the updated scalar state.
(The Python code snapshots the open trades and mutates each dict in place;
since `_exit_trade` is a no-op on exited trades, processing every trade in
order is equivalent.) -/
def exitTradesGo (c : ℚ) (is_sl_tp force_exit : Bool) (p : Params) :
    List Trade → BT → List Trade × BT
  | [], s => ([], s)
  | t :: ts, s =>
    let r := exitTrade c t is_sl_tp force_exit p s
    let rest := exitTradesGo c is_sl_tp force_exit p ts r.2
    (r.1 :: rest.1, rest.2)

/-- `BackTester._exit_trades`: run `_exit_trade` over every trade in the
ledger with the given flags. -/
def exitTrades (c : ℚ) (is_sl_tp force_exit : Bool) (p : Params) (s : BT) : BT :=
  let r := exitTradesGo c is_sl_tp force_exit p s.trades s
  { r.2 with trades := r.1 }

/-- One iteration of the loop in `BackTester.backtest`: handle an
`enter_long` signal (guarded by `last_action != "enter_long"`), else an
`exit_long` signal (force-exit all trades), then run the SL/TP sweep
(`_exit_trades(row, True)`), and record the row as `last_row`. -/
def step (p : Params) (s : BT) (b : Bar) : BT :=
  let s1 :=
    if b.signal = some Signal.enter_long then
      if s.last_action ≠ some BTAction.enter_long then enterLong b.close p s else s
    else if b.signal = some Signal.exit_long then
      exitTrades b.close false true p s
    else s
  let s2 := exitTrades b.close true false p s1
  { s2 with last_row := some b }

/-- `BackTester.backtest` (without the final printing): fold the loop body
over the bars, then liquidate all remaining trades at the last row
(`_exit_trades(self.last_row, force_exit=True)`).  When no bar was
processed `last_row` is still `None`; the trade list is then necessarily
empty and the Python liquidation call touches no row, so it is the
identity. -/
def backtest (p : Params) (bars : List Bar) (s : BT) : BT :=
  let s' := bars.foldl (step p) s
  match s'.last_row with
  | some r => exitTrades r.close false true p s'
  | none => s'

/-- The metrics record assembled by `BackTester._calculate_metrics`. -/
structure Metrics where
  wins : ℕ
  losses : ℕ
  win_amount : ℚ
  loss_amount : ℚ
  sl_hits : ℕ
  tp_hits : ℕ
  force_exits : ℕ
  win_pct : ℚ
  loss_pct : ℚ
  win_div_loss : ℚ
  total_trades : ℕ
  final_balance : ℚ
deriving DecidableEq, Repr

/-- `BackTester._calculate_metrics`: the Python code computes
`win_percentage = no_of_wins / total_trades * 100` and then
`win_loss_ratio = no_of_wins / no_of_loss` with no guard, so it raises
`ZeroDivisionError` when `total_trades == 0` (first) or when
`no_of_loss == 0`; those aborts are modelled by `Except.error`. -/
def calculate_metrics (s : BT) : Except String Metrics :=
  let no_of_wins := s.wins.length
  let no_of_loss := s.losses.length
  if s.total_trades = 0 then Except.error "ZeroDivisionError: win_percentage"
  else if no_of_loss = 0 then Except.error "ZeroDivisionError: win_loss_r"
  else Except.ok
    { wins := no_of_wins
      losses := no_of_loss
      win_amount := s.wins.sum
      loss_amount := s.losses.sum
      sl_hits := s.sl_hits
      tp_hits := s.tp_hits
      force_exits := s.force_exits
      win_pct := (no_of_wins : ℚ) / (s.total_trades : ℚ) * 100
      loss_pct := (no_of_loss : ℚ) / (s.total_trades : ℚ) * 100
      win_div_loss := (no_of_wins : ℚ) / (no_of_loss : ℚ)
      total_trades := s.total_trades
      final_balance := s.balance }

/-- Number of trades in a list whose `exited` flag is still `False`. -/
def countOpen (ts : List Trade) : ℕ :=
  (ts.filter (fun t => !t.exited)).length

/-- Number of open positions in the ledger. -/
def openCount (s : BT) : ℕ :=
  countOpen s.trades

/-- `True` when every trade in the list has been exited. -/
def allExited (ts : List Trade) : Bool :=
  ts.all (fun t => t.exited)

/-- Sample strategy parameters: stake 100, stop-loss 10%, take-profit 20%. -/
def sampleParams : Params :=
  { stake_amount := 100, stop_loss := 1/10, take_profit := 1/5 }

/-- A freshly constructed engine with starting balance 1000. -/
def sampleState : BT := initState 1000

/-- A state holding one open position of 10 units bought at price 10. -/
def sampleOpenState : BT :=
  { initState 900 with
    trades := [{ price := 10, amount := 10, exited := false }]
    last_action := some BTAction.enter_long
    total_trades := 1 }

theorem exitTrade_of_exited_eq (c : ℚ) (t : Trade) (a b : Bool) (p : Params) (s : BT)
    (h : t.exited = true) : exitTrade c t a b p s = (t, s) := by
  simp [exitTrade, h]

theorem exitTrade_force_fst_exited (c : ℚ) (t : Trade) (p : Params) (s : BT) :
    (exitTrade c t false true p s).1.exited = true := by
  by_cases ht : t.exited
  · simp [exitTrade, ht]
  · simp only [exitTrade, ht]
    split_ifs <;> simp_all

theorem exitTrade_cases (c : ℚ) (t : Trade) (a b : Bool) (p : Params) (s : BT) :
    exitTrade c t a b p s = (t, s) ∨
      (t.exited = false ∧ (exitTrade c t a b p s).1 = { t with exited := true } ∧
        (exitTrade c t a b p s).2.last_action = some BTAction.exit_trade ∧
        (exitTrade c t a b p s).2.trades = s.trades) := by
  by_cases ht : t.exited
  · left; simp [exitTrade, ht]
  · simp only [exitTrade, ht]
    simp only [Bool.false_eq_true, if_false]
    split_ifs <;> simp_all

theorem allExited_iff (ts : List Trade) :
    allExited ts = true ↔ ∀ t ∈ ts, t.exited = true := by
  simp [allExited, List.all_eq_true]

theorem countOpen_nil : countOpen [] = 0 := rfl

theorem countOpen_cons (t : Trade) (ts : List Trade) :
    countOpen (t :: ts) = (if t.exited then 0 else 1) + countOpen ts := by
  cases h : t.exited <;> simp [countOpen, List.filter_cons, h, Nat.add_comm]

theorem countOpen_append (ts us : List Trade) :
    countOpen (ts ++ us) = countOpen ts + countOpen us := by
  simp [countOpen, List.filter_append]

theorem countOpen_eq_zero_of_allExited (ts : List Trade) (h : allExited ts = true) :
    countOpen ts = 0 := by
  rw [allExited_iff] at h
  simp only [countOpen, List.length_eq_zero, List.filter_eq_nil_iff]
  intro t ht
  simp [h t ht]

theorem exitTradesGo_id_of (c : ℚ) (a b : Bool) (p : Params) (ts : List Trade)
    (h : ∀ t ∈ ts, ∀ s' : BT, exitTrade c t a b p s' = (t, s')) (s : BT) :
    exitTradesGo c a b p ts s = (ts, s) := by
  induction ts generalizing s with
  | nil => rfl
  | cons t ts ih =>
    simp only [exitTradesGo, h t (by simp)]
    simp [ih (fun u hu s' => h u (by simp [hu]) s')]

theorem exitTrades_noop_of_allExited (c : ℚ) (a b : Bool) (p : Params) (s : BT)
    (h : allExited s.trades = true) : exitTrades c a b p s = s := by
  rw [allExited_iff] at h
  simp [exitTrades,
    exitTradesGo_id_of c a b p s.trades
      (fun t ht s' => exitTrade_of_exited_eq c t a b p s' (h t ht)) s]

theorem exitTradesGo_spec (c : ℚ) (a b : Bool) (p : Params) (ts : List Trade) (s : BT) :
    countOpen (exitTradesGo c a b p ts s).1 ≤ countOpen ts ∧
      (exitTradesGo c a b p ts s = (ts, s) ∨
        ((exitTradesGo c a b p ts s).2.last_action = some BTAction.exit_trade ∧
          countOpen (exitTradesGo c a b p ts s).1 < countOpen ts)) := by
  induction ts generalizing s with
  | nil => exact ⟨le_refl _, Or.inl rfl⟩
  | cons t ts ih =>
    rcases exitTrade_cases c t a b p s with hid | ⟨hopen, hfst, hla, _⟩
    · simp only [exitTradesGo, hid]
      obtain ⟨hle, hdi⟩ := ih s
      refine ⟨?_, ?_⟩
      · simp only [countOpen_cons]
        exact Nat.add_le_add_left hle _
      · rcases hdi with hrfl | ⟨hla', hlt⟩
        · left; simp [hrfl]
        · right
          refine ⟨by simpa using hla', ?_⟩
          simp only [countOpen_cons]
          exact Nat.add_lt_add_left hlt _
    · simp only [exitTradesGo]
      obtain ⟨hle, hdi⟩ := ih (exitTrade c t a b p s).2
      have hfe : (exitTrade c t a b p s).1.exited = true := by rw [hfst]
      refine ⟨?_, Or.inr ⟨?_, ?_⟩⟩
      · simp only [countOpen_cons, hfe, if_pos, hopen, if_neg]
        simp only [hopen, Bool.false_eq_true, if_false, if_true]
        omega
      · rcases hdi with hrfl | ⟨hla', _⟩
        · simp [hrfl, hla]
        · simpa using hla'
      · simp only [countOpen_cons, hfe, hopen, Bool.false_eq_true, if_false, if_true]
        omega

theorem exitTradesGo_force_allExited (c : ℚ) (p : Params) (ts : List Trade) (s : BT) :
    allExited (exitTradesGo c false true p ts s).1 = true := by
  induction ts generalizing s with
  | nil => rfl
  | cons t ts ih =>
    simp only [exitTradesGo, allExited, List.all_cons, Bool.and_eq_true]
    exact ⟨exitTrade_force_fst_exited c t p s, ih _⟩

theorem exitTrade_force_fe (c : ℚ) (t : Trade) (p : Params) (s : BT) :
    (exitTrade c t false true p s).2.force_exits =
      s.force_exits + (if t.exited then 0 else 1) := by
  by_cases ht : t.exited
  · simp [exitTrade, ht]
  · simp only [exitTrade, ht]
    split_ifs <;> simp_all

theorem exitTradesGo_force_fe (c : ℚ) (p : Params) (ts : List Trade) (s : BT) :
    (exitTradesGo c false true p ts s).2.force_exits = s.force_exits + countOpen ts := by
  induction ts generalizing s with
  | nil => simp [exitTradesGo, countOpen_nil]
  | cons t ts ih =>
    simp only [exitTradesGo, countOpen_cons]
    rw [ih, exitTrade_force_fe]
    omega

theorem exitTrades_force_allExited (c : ℚ) (p : Params) (s : BT) :
    allExited (exitTrades c false true p s).trades = true := by
  simp [exitTrades, exitTradesGo_force_allExited]

theorem exitTrades_force_fe (c : ℚ) (p : Params) (s : BT) :
    (exitTrades c false true p s).force_exits = s.force_exits + openCount s := by
  simp [exitTrades, openCount, exitTradesGo_force_fe]

/-- The no-pyramiding invariant: at most one open position, and none at all
unless the most recent action is `enter_long`. -/
def BTInv (s : BT) : Prop :=
  openCount s ≤ 1 ∧ (s.last_action ≠ some BTAction.enter_long → openCount s = 0)

theorem initState_inv (b : ℚ) : BTInv (initState b) :=
  ⟨by simp [openCount, initState, countOpen_nil, countOpen], fun _ => rfl⟩

theorem enterLong_inv (c : ℚ) (p : Params) (s : BT) (h : BTInv s)
    (hla : s.last_action ≠ some BTAction.enter_long) : BTInv (enterLong c p s) := by
  have h0 : openCount s = 0 := h.2 hla
  by_cases hb : p.stake_amount ≤ s.balance
  · constructor
    · simp [enterLong, hb, openCount, countOpen_append, countOpen_cons,
        countOpen_nil]
      simp only [openCount] at h0
      omega
    · intro hne
      exact absurd (show (enterLong c p s).last_action = some BTAction.enter_long by
        simp [enterLong, hb]) hne
  · simpa [enterLong, hb] using h

theorem exitTrades_inv (c : ℚ) (a b : Bool) (p : Params) (s : BT) (h : BTInv s) :
    BTInv (exitTrades c a b p s) := by
  obtain ⟨hle, hdi⟩ := exitTradesGo_spec c a b p s.trades s
  rcases hdi with hrfl | ⟨hla, hlt⟩
  · simpa [exitTrades, hrfl] using h
  · have hz : countOpen (exitTradesGo c a b p s.trades s).1 = 0 := by
      have := h.1
      simp only [openCount] at this
      omega
    constructor
    · simp [exitTrades, openCount, hz]
    · intro _
      simp [exitTrades, openCount, hz]

theorem BTInv_last_row (s : BT) (x : Option Bar) (h : BTInv s) :
    BTInv { s with last_row := x } := h

theorem step_inv (p : Params) (s : BT) (b : Bar) (h : BTInv s) : BTInv (step p s b) := by
  refine BTInv_last_row _ _ (exitTrades_inv _ _ _ _ _ ?_)
  by_cases h1 : b.signal = some Signal.enter_long
  · by_cases h2 : s.last_action ≠ some BTAction.enter_long
    · simpa [h1, h2] using enterLong_inv b.close p s h h2
    · simpa [h1, h2] using h
  · by_cases h3 : b.signal = some Signal.exit_long
    · simpa [h1, h3] using exitTrades_inv b.close false true p s h
    · simpa [h1, h3] using h

theorem foldl_step_inv (p : Params) (bars : List Bar) (s : BT) (h : BTInv s) :
    BTInv (bars.foldl (step p) s) := by
  induction bars generalizing s with
  | nil => exact h
  | cons b bs ih => exact ih _ (step_inv p s b h)

theorem backtest_inv (p : Params) (bars : List Bar) (s : BT) (h : BTInv s) :
    BTInv (backtest p bars s) := by
  have h' := foldl_step_inv p bars s h
  simp only [backtest]
  cases hr : (bars.foldl (step p) s).last_row with
  | none => exact h'
  | some r => exact exitTrades_inv _ _ _ _ _ h'

/-- C1: for every bar sequence and parameters, starting from a freshly
constructed `BackTester`, the number of open positions in the ledger is at
most one at every point during `backtest` — after the processing of any
prefix of the bars (every list quantified over here is such a prefix) and
after the terminal liquidation.  Re-entry is barred while
`last_action == "enter_long"`, entering sets that label, and the label only
leaves `"enter_long"` when a position is closed, so no pyramiding occurs. -/
theorem at_most_one_open_position (p : Params) (B : ℚ) (bars : List Bar) :
    openCount (bars.foldl (step p) (initState B)) ≤ 1 ∧
      openCount (backtest p bars (initState B)) ≤ 1 :=
  ⟨(foldl_step_inv p bars (initState B) (initState_inv B)).1,
   (backtest_inv p bars (initState B) (initState_inv B)).1⟩

/-- C2 (code bug): `_calculate_metrics` guards none of its divisions.  On a
run that produced zero trades (here: the empty bar sequence) the
`win_percentage` division raises `ZeroDivisionError`, and on a run with one
winning trade and no losses (entry at close 10, take-profit at close 12)
the `win_loss_ratio` division raises; no sentinel value is ever produced. -/
theorem calculate_metrics_div_by_zero :
    calculate_metrics (backtest sampleParams [] (initState 1000)) =
      Except.error "ZeroDivisionError: win_percentage" ∧
    calculate_metrics
        (backtest sampleParams
          [{ close := 10, signal := some Signal.enter_long }, { close := 12, signal := none }]
          (initState 1000)) =
      Except.error "ZeroDivisionError: win_loss_r" := by
  refine ⟨rfl, ?_⟩
  simp [backtest, step, exitTrades, exitTradesGo, exitTrade, enterLong,
    initState, sampleParams, calculate_metrics]
  norm_num

/-- C6: each invocation of `_exit_trade` either changes nothing at all, or
closes the trade, credits `position_value = amount * close` back to the
balance, and appends exactly one element to `losses` (when the position
value is below the stake), exactly one element to `wins` (when above), or —
at exact break-even — appends nothing and increments `force_exits` by one.
Hence every close contributes exactly one unit to
`len(wins) + len(losses) + (forced break-even exits)`, which therefore
always equals the number of closed positions. -/
theorem exit_trade_close_accounting (c : ℚ) (t : Trade) (a b : Bool) (p : Params) (s : BT) :
    exitTrade c t a b p s = (t, s) ∨
      (t.exited = false ∧ (exitTrade c t a b p s).1 = { t with exited := true } ∧
        (exitTrade c t a b p s).2.balance = s.balance + t.amount * c ∧
        (exitTrade c t a b p s).2.trades = s.trades ∧
        ((t.amount * c < p.stake_amount ∧
            (exitTrade c t a b p s).2.losses = s.losses ++ [p.stake_amount - t.amount * c] ∧
            (exitTrade c t a b p s).2.wins = s.wins) ∨
          (p.stake_amount < t.amount * c ∧
            (exitTrade c t a b p s).2.wins = s.wins ++ [t.amount * c - p.stake_amount] ∧
            (exitTrade c t a b p s).2.losses = s.losses) ∨
          (t.amount * c = p.stake_amount ∧
            (exitTrade c t a b p s).2.wins = s.wins ∧
            (exitTrade c t a b p s).2.losses = s.losses ∧
            (exitTrade c t a b p s).2.force_exits = s.force_exits + 1))) := by
  by_cases ht : t.exited
  · left; simp [exitTrade, ht]
  · simp only [exitTrade, ht, Bool.false_eq_true, if_false]
    split_ifs with h1 h2 h3 h4 h5 h6 h7 <;>
      first
        | (left; rfl)
        | (right; refine ⟨by simp_all, rfl, rfl, rfl, ?_⟩
           first
             | exact Or.inl ⟨by assumption, rfl, rfl⟩
             | exact Or.inr (Or.inl ⟨by assumption, rfl, rfl⟩)
             | exact Or.inr (Or.inr ⟨le_antisymm (not_lt.1 (by assumption)) (not_lt.1 (by assumption)), rfl, rfl, rfl⟩))

/-- C7: invoking `_exit_trade` on a trade whose `exited` flag is already
`True` is a no-op for every combination of the `is_sl_tp` and `force_exit`
flags: the trade and the whole engine state are returned unchanged, so a
trade's `exited` flag transitions `False → True` at most once. -/
theorem exit_trade_noop_on_exited (c : ℚ) (t : Trade) (a b : Bool) (p : Params) (s : BT)
    (h : t.exited = true) : exitTrade c t a b p s = (t, s) := by
  simp [exitTrade, h]

/-- Witness for C7 at a concrete closed trade, with both flags set. -/
theorem exit_trade_noop_on_exited_witness :
    exitTrade 9 { price := 10, amount := 10, exited := true } true true sampleParams
        sampleState =
      ({ price := 10, amount := 10, exited := true }, sampleState) :=
  exit_trade_noop_on_exited 9 { price := 10, amount := 10, exited := true } true true
    sampleParams sampleState rfl

/-- C8: `_enter_long` with `balance < stake_amount` silently leaves the
whole state unchanged (no trade, no balance change, no counter, no
`last_action` update); with `balance >= stake_amount` it appends a trade of
`amount = stake_amount / close`, debits the stake, bumps `total_trades`
and sets `last_action = "enter_long"`. -/
theorem enter_long_balance_guard (c : ℚ) (p : Params) (s : BT) :
    (s.balance < p.stake_amount → enterLong c p s = s) ∧
      (p.stake_amount ≤ s.balance →
        enterLong c p s =
          { s with
            trades := s.trades ++ [{ price := c, amount := p.stake_amount / c, exited := false }]
            balance := s.balance - p.stake_amount
            total_trades := s.total_trades + 1
            last_action := some BTAction.enter_long }) := by
  constructor
  · intro h
    simp [enterLong, not_le.2 h]
  · intro h
    simp [enterLong, h]

/-- Witness for C8: an entry attempt on balance 50 with stake 100 is
skipped; on balance 1000 it opens the position. -/
theorem enter_long_balance_guard_witness :
    enterLong 10 sampleParams (initState 50) = initState 50 ∧
      enterLong 10 sampleParams (initState 1000) =
        { initState 1000 with
          trades := (initState 1000).trades ++
            [{ price := 10, amount := sampleParams.stake_amount / 10, exited := false }]
          balance := (initState 1000).balance - sampleParams.stake_amount
          total_trades := (initState 1000).total_trades + 1
          last_action := some BTAction.enter_long } :=
  ⟨(enter_long_balance_guard 10 sampleParams (initState 50)).1 (by norm_num [initState, sampleParams]),
   (enter_long_balance_guard 10 sampleParams (initState 1000)).2 (by norm_num [initState, sampleParams])⟩

/-- C3: the SL/TP sweep (`_exit_trade` with `is_sl_tp=True`,
`force_exit=False`) on an open position with `position_value = amount *
close`: below the stake it closes exactly when
`(stake_amount - position_value)/stake_amount >= stop_loss` (boundary
inclusive), incrementing `sl_hits`; above the stake it closes exactly when
`(position_value - stake_amount)/stake_amount >= take_profit` (inclusive),
incrementing `tp_hits`; strictly below either threshold nothing changes. -/
theorem sl_tp_threshold_boundary (c : ℚ) (t : Trade) (p : Params) (s : BT)
    (h : t.exited = false) :
    ((t.amount * c < p.stake_amount ∧
        p.stop_loss ≤ (p.stake_amount - t.amount * c) / p.stake_amount) →
      exitTrade c t true false p s =
        ({ t with exited := true },
         { s with
           sl_hits := s.sl_hits + 1
           losses := s.losses ++ [p.stake_amount - t.amount * c]
           balance := s.balance + t.amount * c
           last_action := some BTAction.exit_trade })) ∧
    ((t.amount * c < p.stake_amount ∧
        (p.stake_amount - t.amount * c) / p.stake_amount < p.stop_loss) →
      exitTrade c t true false p s = (t, s)) ∧
    ((p.stake_amount < t.amount * c ∧
        p.take_profit ≤ (t.amount * c - p.stake_amount) / p.stake_amount) →
      exitTrade c t true false p s =
        ({ t with exited := true },
         { s with
           tp_hits := s.tp_hits + 1
           wins := s.wins ++ [t.amount * c - p.stake_amount]
           balance := s.balance + t.amount * c
           last_action := some BTAction.exit_trade })) ∧
    ((p.stake_amount < t.amount * c ∧
        (t.amount * c - p.stake_amount) / p.stake_amount < p.take_profit) →
      exitTrade c t true false p s = (t, s)) := by
  refine ⟨fun ⟨h1, h2⟩ => ?_, fun ⟨h1, h2⟩ => ?_, fun ⟨h1, h2⟩ => ?_, fun ⟨h1, h2⟩ => ?_⟩
  · simp [exitTrade, h, h1, h2]
  · simp [exitTrade, h, h1, not_le.2 h2]
  · simp [exitTrade, h, not_lt.2 h1.le, h1, h2]
  · simp [exitTrade, h, not_lt.2 h1.le, h1, not_le.2 h2]

/-- Witness for C3: with stake 100, stop-loss 1/10 and take-profit 1/5 on a
10-unit position entered at 10, close 9 hits the stop-loss boundary
exactly, close 19/2 stays open, close 12 hits the take-profit boundary
exactly, and close 23/2 stays open. -/
theorem sl_tp_threshold_boundary_witness :
    (exitTrade 9 { price := 10, amount := 10, exited := false } true false sampleParams
        sampleState =
      ({ price := 10, amount := 10, exited := true },
       { sampleState with
         sl_hits := sampleState.sl_hits + 1
         losses := sampleState.losses ++ [sampleParams.stake_amount - 10 * 9]
         balance := sampleState.balance + 10 * 9
         last_action := some BTAction.exit_trade })) ∧
    (exitTrade (19/2) { price := 10, amount := 10, exited := false } true false sampleParams
        sampleState = ({ price := 10, amount := 10, exited := false }, sampleState)) ∧
    (exitTrade 12 { price := 10, amount := 10, exited := false } true false sampleParams
        sampleState =
      ({ price := 10, amount := 10, exited := true },
       { sampleState with
         tp_hits := sampleState.tp_hits + 1
         wins := sampleState.wins ++ [10 * 12 - sampleParams.stake_amount]
         balance := sampleState.balance + 10 * 12
         last_action := some BTAction.exit_trade })) ∧
    (exitTrade (23/2) { price := 10, amount := 10, exited := false } true false sampleParams
        sampleState = ({ price := 10, amount := 10, exited := false }, sampleState)) :=
  ⟨(sl_tp_threshold_boundary 9 { price := 10, amount := 10, exited := false } sampleParams
      sampleState rfl).1 (by norm_num [sampleParams]),
   (sl_tp_threshold_boundary (19/2) { price := 10, amount := 10, exited := false } sampleParams
      sampleState rfl).2.1 (by norm_num [sampleParams]),
   (sl_tp_threshold_boundary 12 { price := 10, amount := 10, exited := false } sampleParams
      sampleState rfl).2.2.1 (by norm_num [sampleParams]),
   (sl_tp_threshold_boundary (23/2) { price := 10, amount := 10, exited := false } sampleParams
      sampleState rfl).2.2.2 (by norm_num [sampleParams])⟩

theorem step_last_row (p : Params) (s : BT) (b : Bar) : (step p s b).last_row = some b := rfl

theorem foldl_step_last_row_isSome (p : Params) (bs : List Bar) (s : BT)
    (h : s.last_row.isSome) : ((bs.foldl (step p) s).last_row).isSome := by
  induction bs generalizing s with
  | nil => exact h
  | cons b bs ih => exact ih _ (by rw [step_last_row]; rfl)

/-- C4: on any non-empty bar sequence, `backtest` from a fresh state ends
with every ledger position exited (the terminal
`_exit_trades(last_row, force_exit=True)` closes every still-open trade at
the last bar's close regardless of profit or loss): zero open positions
remain. -/
theorem terminal_liquidation_all_exited (p : Params) (bars : List Bar) (B : ℚ)
    (h : bars ≠ []) :
    allExited (backtest p bars (initState B)).trades = true ∧
      openCount (backtest p bars (initState B)) = 0 := by
  have hsome : ((bars.foldl (step p) (initState B)).last_row).isSome := by
    cases bars with
    | nil => exact absurd rfl h
    | cons b bs =>
      rw [List.foldl_cons]
      exact foldl_step_last_row_isSome p bs _ (by rw [step_last_row]; rfl)
  obtain ⟨r, hr⟩ := Option.isSome_iff_exists.1 hsome
  have hall : allExited (backtest p bars (initState B)).trades = true := by
    simp only [backtest, hr]
    exact exitTrades_force_allExited _ _ _
  exact ⟨hall, countOpen_eq_zero_of_allExited _ hall⟩

/-- Witness for C4 on a one-bar input. -/
theorem terminal_liquidation_all_exited_witness :
    allExited
        (backtest sampleParams [{ close := 10, signal := some Signal.enter_long }]
          (initState 1000)).trades = true ∧
      openCount
        (backtest sampleParams [{ close := 10, signal := some Signal.enter_long }]
          (initState 1000)) = 0 :=
  terminal_liquidation_all_exited sampleParams
    [{ close := 10, signal := some Signal.enter_long }] 1000 (by simp)

/-- C5: on a bar whose signal is `exit_long`, the forced-exit pass closes
every position open at the start of the bar and increments `force_exits`
exactly once per such position; the SL/TP sweep that follows on the same
bar is then the identity (no position closed, no counter incremented), and
the whole bar's processing is the forced pass followed only by the
`last_row` update — no position is double-counted. -/
theorem exit_long_forces_all_then_sweep_noop (p : Params) (b : Bar) (s : BT)
    (h : b.signal = some Signal.exit_long) :
    allExited (exitTrades b.close false true p s).trades = true ∧
      (exitTrades b.close false true p s).force_exits = s.force_exits + openCount s ∧
      exitTrades b.close true false p (exitTrades b.close false true p s) =
        exitTrades b.close false true p s ∧
      step p s b = { exitTrades b.close false true p s with last_row := some b } := by
  have hall := exitTrades_force_allExited b.close p s
  have hnoop := exitTrades_noop_of_allExited b.close true false p _ hall
  refine ⟨hall, exitTrades_force_fe b.close p s, hnoop, ?_⟩
  simp only [step, h]
  simp [hnoop]

/-- Witness for C5: an `exit_long` bar at close 9 on a state holding one
open 10-unit position bought at 10. -/
theorem exit_long_forces_all_then_sweep_noop_witness :
    allExited
        (exitTrades (9 : ℚ) false true sampleParams sampleOpenState).trades = true ∧
      (exitTrades (9 : ℚ) false true sampleParams sampleOpenState).force_exits =
        sampleOpenState.force_exits + openCount sampleOpenState ∧
      exitTrades (9 : ℚ) true false sampleParams
          (exitTrades (9 : ℚ) false true sampleParams sampleOpenState) =
        exitTrades (9 : ℚ) false true sampleParams sampleOpenState ∧
      step sampleParams sampleOpenState { close := 9, signal := some Signal.exit_long } =
        { exitTrades (9 : ℚ) false true sampleParams sampleOpenState with
          last_row := some { close := 9, signal := some Signal.exit_long } } :=
  exit_long_forces_all_then_sweep_noop sampleParams
    { close := 9, signal := some Signal.exit_long } sampleOpenState rfl

/-- C9: the spec's concrete scenario.  With stake 100, stop-loss 1/10,
take-profit 1/5 and any starting balance `B ≥ 100`, the two bars
(close 10, `enter_long`) then (close 9, no signal) open one 10-unit
position at the first bar and close it at the second as a stop-loss hit;
the final ledger and metrics are exactly wins 0, losses 1, loss amount 10,
`sl_hits` 1, `tp_hits` 0, `force_exits` 0, one trade, and final balance
`B - 100 + 90`. -/
theorem stop_loss_scenario (B : ℚ) (h : 100 ≤ B) :
    backtest sampleParams
        [{ close := 10, signal := some Signal.enter_long }, { close := 9, signal := none }]
        (initState B) =
      { balance := B - 100 + 90
        trades := [{ price := 10, amount := 10, exited := true }]
        last_action := some BTAction.exit_trade
        wins := []
        losses := [10]
        sl_hits := 1
        tp_hits := 0
        force_exits := 0
        total_trades := 1
        last_row := some { close := 9, signal := none } } ∧
    calculate_metrics
        (backtest sampleParams
          [{ close := 10, signal := some Signal.enter_long }, { close := 9, signal := none }]
          (initState B)) =
      Except.ok
        { wins := 0
          losses := 1
          win_amount := 0
          loss_amount := 10
          sl_hits := 1
          tp_hits := 0
          force_exits := 0
          win_pct := 0
          loss_pct := 100
          win_div_loss := 0
          total_trades := 1
          final_balance := B - 100 + 90 } := by
  have h1 : backtest sampleParams
      [{ close := 10, signal := some Signal.enter_long }, { close := 9, signal := none }]
      (initState B) =
      { balance := B - 100 + 90
        trades := [{ price := 10, amount := 10, exited := true }]
        last_action := some BTAction.exit_trade
        wins := []
        losses := [10]
        sl_hits := 1
        tp_hits := 0
        force_exits := 0
        total_trades := 1
        last_row := some { close := 9, signal := none } } := by
    simp [backtest, step, exitTrades, exitTradesGo, exitTrade, enterLong, initState,
      sampleParams, h]
    norm_num
  refine ⟨h1, ?_⟩
  rw [h1]
  simp [calculate_metrics]

/-- Witness for C9 at starting balance 1000. -/
theorem stop_loss_scenario_witness :
    backtest sampleParams
        [{ close := 10, signal := some Signal.enter_long }, { close := 9, signal := none }]
        (initState 1000) =
      { balance := 1000 - 100 + 90
        trades := [{ price := 10, amount := 10, exited := true }]
        last_action := some BTAction.exit_trade
        wins := []
        losses := [10]
        sl_hits := 1
        tp_hits := 0
        force_exits := 0
        total_trades := 1
        last_row := some { close := 9, signal := none } } ∧
    calculate_metrics
        (backtest sampleParams
          [{ close := 10, signal := some Signal.enter_long }, { close := 9, signal := none }]
          (initState 1000)) =
      Except.ok
        { wins := 0
          losses := 1
          win_amount := 0
          loss_amount := 10
          sl_hits := 1
          tp_hits := 0
          force_exits := 0
          win_pct := 0
          loss_pct := 100
          win_div_loss := 0
          total_trades := 1
          final_balance := 1000 - 100 + 90 } :=
  stop_loss_scenario 1000 (by norm_num)

/-- C10: under exact rational arithmetic, a position opened on a bar is
never closed by the SL/TP sweep of that same bar: starting from any state
with no open positions (the only state an entry can be taken from, by the
no-pyramiding invariant) and enough balance, the entry appends a trade of
`amount = stake_amount / close`, the sweep recomputes its position value as
`(stake_amount / close) * close = stake_amount` exactly, lands in the
no-change branch, and leaves the entire state — new position still open,
all counters — unchanged. -/
theorem entry_bar_sweep_noop (c : ℚ) (p : Params) (s : BT) (hc : c ≠ 0)
    (hbal : p.stake_amount ≤ s.balance) (hall : allExited s.trades = true) :
    (enterLong c p s).trades =
        s.trades ++ [{ price := c, amount := p.stake_amount / c, exited := false }] ∧
      exitTrades c true false p (enterLong c p s) = enterLong c p s := by
  have htr : (enterLong c p s).trades =
      s.trades ++ [{ price := c, amount := p.stake_amount / c, exited := false }] := by
    simp [enterLong, hbal]
  refine ⟨htr, ?_⟩
  have hpv : p.stake_amount / c * c = p.stake_amount := div_mul_cancel₀ _ hc
  have hnew : ∀ s' : BT,
      exitTrade c { price := c, amount := p.stake_amount / c, exited := false }
        true false p s' =
      ({ price := c, amount := p.stake_amount / c, exited := false }, s') := by
    intro s'
    simp [exitTrade, hpv]
  have hmem : ∀ t ∈ (enterLong c p s).trades, ∀ s' : BT,
      exitTrade c t true false p s' = (t, s') := by
    intro t ht s'
    rw [htr] at ht
    rcases List.mem_append.1 ht with hin | hin
    · exact exitTrade_of_exited_eq c t true false p s' ((allExited_iff s.trades).1 hall t hin)
    · rw [List.mem_singleton.1 hin]
      exact hnew s'
  simp [exitTrades, exitTradesGo_id_of c true false p _ hmem]

/-- Witness for C10: entry at close 10 from a fresh balance-1000 state. -/
theorem entry_bar_sweep_noop_witness :
    (enterLong 10 sampleParams sampleState).trades =
        sampleState.trades ++
          [{ price := 10, amount := sampleParams.stake_amount / 10, exited := false }] ∧
      exitTrades 10 true false sampleParams (enterLong 10 sampleParams sampleState) =
        enterLong 10 sampleParams sampleState :=
  entry_bar_sweep_noop 10 sampleParams sampleState (by norm_num)
    (by norm_num [sampleParams, sampleState, initState]) rfl
